import Mathlib

/-!
Shallow embedding of the `binary_io` C++ library (Ryan-rsm-McKenzie/binary_io)
and proofs about it.

The embedding follows the source files:

* `include/binary_io/common.hpp` — the endian codec (`endian::reverse`,
  `endian::load`, `endian::store`, the runtime-dispatch `read`/`write`
  helpers), the shared position tracker `components::basic_seek_stream`,
  and the batched front-ends `istream_interface` / `ostream_interface`;
* `src/binary_io/binary_io.cpp` — `span_istream::read_bytes`,
  `span_ostream::write_bytes`;
* `include/binary_io/memory_stream.hpp` — `basic_memory_istream::read_bytes`,
  `basic_memory_ostream::write_bytes` with `std::vector<std::byte>` storage;
* `include/binary_io/any_stream.hpp` — `components::any_stream_base` and its
  `get` / `get_if` / `has_value` observers.

Machine bytes are modelled as `Nat` values (meaningful when `< 256`); byte
buffers are `List Nat`; the stream offset type `binary_io::streamoff`
(`long long`) is modelled as `Int`.  Fallible operations return an
`Except`-valued result paired with the post-state; a C++ `throw` corresponds
to returning the error together with the state exactly as it was at the throw
point (C++ exceptions unwind without touching the stream object further).
-/

deriving instance DecidableEq for Except

namespace BinaryIO

/-- `binary_io::streamoff` (`long long`). -/
abbrev streamoff := Int

/-- The error surface relevant to the memory-backed streams:
`binary_io::buffer_exhausted` (`common.hpp`). -/
inductive Err where
  | bufferExhausted
  deriving DecidableEq, Repr

/-! ## Endian codec (`common.hpp`, `namespace endian`) -/

/-- `std::endian` restricted to the two values the library dispatches on. -/
inductive Endian where
  | little
  | big
  deriving DecidableEq, Repr

/-- The `w` little-endian bytes of a value: byte `i` is `v / 256^i % 256`.
This is the memory image of a `w`-byte integral value on a little-endian
machine (`std::memcpy` in `endian::store` / `endian::load`). -/
def bytesLE : Nat → Nat → List Nat
  | 0, _ => []
  | w + 1, v => v % 256 :: bytesLE w (v / 256)

/-- Read a natural number back from little-endian bytes (inverse of
`bytesLE`): the value an integral load gives on a little-endian machine. -/
def natOfBytesLE : List Nat → Nat
  | [] => 0
  | b :: bs => b + 256 * natOfBytesLE bs

/-- `binary_io::endian::reverse` (`common.hpp:253-271`): identity for 1-byte
values, otherwise the compiler byte-swap intrinsic, i.e. reversal of the
value's byte sequence. `w` is `sizeof(T)`. -/
def reverse (w v : Nat) : Nat :=
  if w = 1 then v else natOfBytesLE (bytesLE w v).reverse

/-- The `w`-byte memory image of value `v` on a machine of native order
`native` (what `std::memcpy` out of a `T` produces). -/
def nativeToBytes (native : Endian) (w v : Nat) : List Nat :=
  match native with
  | .little => bytesLE w v
  | .big => (bytesLE w v).reverse

/-- The value obtained by `std::memcpy`-ing bytes into a `T` on a machine of
native order `native`. -/
def nativeOfBytes (native : Endian) (bs : List Nat) : Nat :=
  match native with
  | .little => natOfBytesLE bs
  | .big => natOfBytesLE bs.reverse

/-- `binary_io::endian::store<E, T>` (`common.hpp:298-307`): reverse the value
iff the requested order differs from the native order, then `memcpy` the
native image into the destination buffer.  Returns the `w = sizeof(T)` bytes
written. -/
def store (native E : Endian) (w v : Nat) : List Nat :=
  nativeToBytes native w (if native ≠ E then reverse w v else v)

/-- `binary_io::endian::load<E, T>` (`common.hpp:278-291`): `memcpy` the
source bytes into a scratch `T`, then reverse iff the requested order differs
from the native order. -/
def load (native E : Endian) (w : Nat) (bs : List Nat) : Nat :=
  let val := nativeOfBytes native bs
  if native ≠ E then reverse w val else val

/-! ### Arithmetic lemmas about the codec -/

theorem bytesLE_length (w v : Nat) : (bytesLE w v).length = w := by
  induction w generalizing v with
  | zero => rfl
  | succ w ih => simp [bytesLE, ih]

theorem bytesLE_lt (w v : Nat) : ∀ b ∈ bytesLE w v, b < 256 := by
  induction w generalizing v with
  | zero => simp [bytesLE]
  | succ w ih =>
    intro b hb
    simp only [bytesLE, List.mem_cons] at hb
    rcases hb with h | h
    · omega
    · exact ih _ b h

theorem natOfBytesLE_bytesLE {w v : Nat} (h : v < 256 ^ w) :
    natOfBytesLE (bytesLE w v) = v := by
  induction w generalizing v with
  | zero =>
    have : v = 0 := by simpa using h
    simp [this, bytesLE, natOfBytesLE]
  | succ w ih =>
    have hdiv : v / 256 < 256 ^ w := by
      rw [Nat.div_lt_iff_lt_mul (by norm_num : 0 < 256)]
      calc v < 256 ^ (w + 1) := h
        _ = 256 ^ w * 256 := by ring
    simp [bytesLE, natOfBytesLE, ih hdiv, Nat.mod_add_div]

theorem bytesLE_natOfBytesLE {l : List Nat} (h : ∀ b ∈ l, b < 256) :
    bytesLE l.length (natOfBytesLE l) = l := by
  induction l with
  | nil => rfl
  | cons b bs ih =>
    have hb : b < 256 := h b (List.mem_cons_self b bs)
    have hbs : ∀ x ∈ bs, x < 256 := fun x hx => h x (List.mem_cons_of_mem b hx)
    simp only [List.length_cons, bytesLE, natOfBytesLE]
    have h1 : (b + 256 * natOfBytesLE bs) % 256 = b := by
      rw [Nat.add_mul_mod_self_left, Nat.mod_eq_of_lt hb]
    have h2 : (b + 256 * natOfBytesLE bs) / 256 = natOfBytesLE bs := by
      rw [Nat.add_mul_div_left _ _ (by norm_num : 0 < 256),
        Nat.div_eq_of_lt hb, Nat.zero_add]
    rw [h1, h2, ih hbs]

theorem natOfBytesLE_lt {l : List Nat} (h : ∀ b ∈ l, b < 256) :
    natOfBytesLE l < 256 ^ l.length := by
  induction l with
  | nil => simp [natOfBytesLE]
  | cons b bs ih =>
    have hb : b < 256 := h b (List.mem_cons_self b bs)
    have hbs := ih (fun x hx => h x (List.mem_cons_of_mem b hx))
    simp only [natOfBytesLE, List.length_cons, pow_succ]
    calc b + 256 * natOfBytesLE bs
        < 256 + 256 * natOfBytesLE bs := by omega
      _ = 256 * (natOfBytesLE bs + 1) := by ring
      _ ≤ 256 * 256 ^ bs.length := by
          exact Nat.mul_le_mul_left 256 hbs
      _ = 256 ^ bs.length * 256 := by ring

theorem reverse_lt {w v : Nat} (h : v < 256 ^ w) : reverse w v < 256 ^ w := by
  unfold reverse
  split
  · exact h
  · have hlen : ((bytesLE w v).reverse).length = w := by
      simp [bytesLE_length]
    have hmem : ∀ b ∈ (bytesLE w v).reverse, b < 256 := by
      intro b hb
      exact bytesLE_lt w v b (List.mem_reverse.mp hb)
    simpa [hlen] using natOfBytesLE_lt hmem

theorem reverse_reverse {w v : Nat} (h : v < 256 ^ w) :
    reverse w (reverse w v) = v := by
  unfold reverse
  split
  · rfl
  · have hlen : ((bytesLE w v).reverse).length = w := by
      simp [bytesLE_length]
    have hmem : ∀ b ∈ (bytesLE w v).reverse, b < 256 := by
      intro b hb
      exact bytesLE_lt w v b (List.mem_reverse.mp hb)
    have hinv := bytesLE_natOfBytesLE hmem
    rw [hlen] at hinv
    rw [hinv, List.reverse_reverse]
    exact natOfBytesLE_bytesLE h

theorem nativeOfBytes_nativeToBytes (native : Endian) {w v : Nat}
    (h : v < 256 ^ w) : nativeOfBytes native (nativeToBytes native w v) = v := by
  cases native with
  | little => exact natOfBytesLE_bytesLE h
  | big =>
    simp only [nativeToBytes, nativeOfBytes, List.reverse_reverse]
    exact natOfBytesLE_bytesLE h

/-! ## Position tracker (`common.hpp`, `components::basic_seek_stream`) -/

/-- `binary_io::components::basic_seek_stream` (`common.hpp:373-404`): the
shared position tracker composed by the span and memory backends.  `_pos` is
default-initialised to `0`. -/
structure basic_seek_stream where
  pos : streamoff
  deriving DecidableEq, Repr

/-- `basic_seek_stream::seek_absolute` (`common.hpp:382-385`):
`_pos = std::max<streamoff>(a_pos, 0)`. -/
def basic_seek_stream.seek_absolute (_s : basic_seek_stream)
    (a_pos : streamoff) : basic_seek_stream :=
  ⟨max a_pos 0⟩

/-- `basic_seek_stream::seek_relative` (`common.hpp:390-393`): delegates to
`seek_absolute(_pos + a_off)`. -/
def basic_seek_stream.seek_relative (s : basic_seek_stream)
    (a_off : streamoff) : basic_seek_stream :=
  s.seek_absolute (s.pos + a_off)

/-- `basic_seek_stream::tell` (`common.hpp:398`). -/
def basic_seek_stream.tell (s : basic_seek_stream) : streamoff :=
  s.pos

/-! ## Span backend (`span_stream.hpp`, `binary_io.cpp:135-187`)

A `span_stream_base` holds a borrowed, fixed-extent byte range plus the
inherited `basic_seek_stream`.  The buffer contents stand in for the bytes
the borrowed span designates. -/

/-- `binary_io::span_istream`: inherited `basic_seek_stream` position plus
the borrowed buffer of the underlying `std::span<const std::byte>`. -/
structure span_istream where
  seek : basic_seek_stream
  buf : List Nat
  deriving DecidableEq, Repr

/-- `binary_io::span_ostream`: position plus the borrowed writable buffer. -/
structure span_ostream where
  seek : basic_seek_stream
  buf : List Nat
  deriving DecidableEq, Repr

/-- `memcpy(buffer.data() + off, src.data(), src.size())`: overwrite
`src.length` bytes of `buf` starting at offset `off`.  (In every reachable
call `off + src.length ≤ buf.length`.) -/
def writeAt (buf : List Nat) (off : Nat) (src : List Nat) : List Nat :=
  buf.take off ++ src ++ buf.drop (off + src.length)

/-- `span_istream::read_bytes(std::size_t)` (`binary_io.cpp:146-166`):
an empty request returns an empty span at once; otherwise, if
`tell() + a_count` exceeds the span's extent, throw `buffer_exhausted`
(the position is untouched — the `seek_relative` advancing it comes after
the check); otherwise advance the cursor and yield the bytes at the old
position.  The second component is the stream state after the call. -/
def span_istream.read_bytes (s : span_istream) (a_count : Nat) :
    Except Err (List Nat) × span_istream :=
  if a_count = 0 then
    (.ok [], s)
  else if s.seek.tell + (a_count : Int) > (s.buf.length : Int) then
    (.error .bufferExhausted, s)
  else
    (.ok ((s.buf.drop s.seek.tell.toNat).take a_count),
      { s with seek := s.seek.seek_relative (a_count : Int) })

/-- `span_ostream::write_bytes` (`binary_io.cpp:168-187`): an empty source is
an immediate no-op; otherwise, if `tell() + a_src.size()` exceeds the span's
extent, throw `buffer_exhausted` before advancing; otherwise advance the
cursor and copy the bytes at the old position. -/
def span_ostream.write_bytes (s : span_ostream) (a_src : List Nat) :
    Except Err Unit × span_ostream :=
  if a_src.length = 0 then
    (.ok (), s)
  else if s.seek.tell + (a_src.length : Int) > (s.buf.length : Int) then
    (.error .bufferExhausted, s)
  else
    (.ok (),
      { seek := s.seek.seek_relative (a_src.length : Int),
        buf := writeAt s.buf s.seek.tell.toNat a_src })

/-! ## Owning growable-buffer backend (`memory_stream.hpp`)

`memory_istream` / `memory_ostream` instantiate
`basic_memory_istream` / `basic_memory_ostream` with
`std::vector<std::byte>` — a resizable container, modelled by `List Nat`. -/

/-- `binary_io::memory_istream`: inherited position plus the owned buffer. -/
structure memory_istream where
  seek : basic_seek_stream
  buf : List Nat
  deriving DecidableEq, Repr

/-- `binary_io::memory_ostream`: inherited position plus the owned buffer. -/
structure memory_ostream where
  seek : basic_seek_stream
  buf : List Nat
  deriving DecidableEq, Repr

/-- `std::vector::resize(n)`: truncate or grow, value-initialising (zero) any
newly created bytes. -/
def listResize (l : List Nat) (n : Nat) : List Nat :=
  l.take n ++ List.replicate (n - l.length) 0

/-- `basic_memory_istream::read_bytes(std::size_t)`
(`memory_stream.hpp:110-126`): unlike the span backend there is **no**
zero-length early return; the bounds check `where + a_count > size(buffer)`
runs for every request (`where ≥ 0` is asserted; it is an invariant of the
clamped seeker).  On success the cursor advances and the bytes at the old
position are returned without a copy. -/
def memory_istream.read_bytes (s : memory_istream) (a_count : Nat) :
    Except Err (List Nat) × memory_istream :=
  if s.seek.tell + (a_count : Int) > (s.buf.length : Int) then
    (.error .bufferExhausted, s)
  else
    (.ok ((s.buf.drop s.seek.tell.toNat).take a_count),
      { s with seek := s.seek.seek_relative (a_count : Int) })

/-- `basic_memory_ostream::write_bytes` (`memory_stream.hpp:148-168`) with a
resizable container (`std::vector`): if `wantsz = where + a_src.size()`
exceeds the current size the buffer is resized to exactly `wantsz`
(zero-filling the new bytes); then the cursor advances and the source is
copied at the old position.  No zero-length early return exists here either.
For a resizable container the operation never throws. -/
def memory_ostream.write_bytes (s : memory_ostream) (a_src : List Nat) :
    Except Err Unit × memory_ostream :=
  let w := s.seek.tell
  let wantsz : Int := w + (a_src.length : Int)
  let buffer :=
    if wantsz > (s.buf.length : Int) then listResize s.buf wantsz.toNat
    else s.buf
  (.ok (),
    { seek := s.seek.seek_relative (a_src.length : Int),
      buf := writeAt buffer w.toNat a_src })

/-! ## Batched front-end (`common.hpp`, `istream_interface` /
`ostream_interface`)

`ostream_interface::write(endian, args...)` encodes every field at its byte
offset in declared order into one scratch buffer of the summed size, then
issues a single `write_bytes`.  `istream_interface::read(endian, args...)`
issues a single raw read of the summed size (for `memory_istream`, via the
no-copy `read_bytes(count)` overload) and decodes each field at its offset.
A field is modelled as a `(width, value)` pair. -/

/-- The scratch buffer `ostream_interface::write` assembles
(`common.hpp:607-625`): the concatenation of each field's encoding, in
declared order. -/
def encodeFields (native E : Endian) (fields : List (Nat × Nat)) : List Nat :=
  (fields.map fun p => store native E p.1 p.2).flatten

/-- The decoding loop of `istream_interface::do_read` (`common.hpp:564-577`):
field `i` is decoded from the bytes at its offset, offsets accumulating in
declared order. -/
def decodeFields (native E : Endian) : List Nat → List Nat → List Nat
  | [], _ => []
  | w :: ws, bs => load native E w (bs.take w) :: decodeFields native E ws (bs.drop w)

/-- `ostream_interface::write(a_endian, a_args...)` over a `memory_ostream`:
encode all fields into one buffer, then a single `write_bytes`. -/
def memory_ostream.write_batch (s : memory_ostream) (native E : Endian)
    (fields : List (Nat × Nat)) : Except Err Unit × memory_ostream :=
  s.write_bytes (encodeFields native E fields)

/-- `istream_interface::read(a_endian, a_args...)` over a `memory_istream`:
one aggregated raw `read_bytes` of the summed size (the no-copy overload),
then per-field decoding at the field offsets. -/
def memory_istream.read_batch (s : memory_istream) (native E : Endian)
    (widths : List Nat) : Except Err (List Nat) × memory_istream :=
  match s.read_bytes widths.sum with
  | (.ok bs, s') => (.ok (decodeFields native E widths bs), s')
  | (.error e, s') => (.error e, s')

/-! ## Type-erasure wrapper (`any_stream.hpp`)

`components::any_stream_base` owns a `std::unique_ptr` to an erased stream;
`nullptr` is the empty state (`has_value() == false`).  The held object is an
`erased_ostream<S>` for exactly one concrete stream type `S`;
`get_if<S>` is `dynamic_cast<StreamErased<S>*>(_stream.get())`
(`any_stream.hpp:223-228`), which compares the dynamic type tag and yields
`nullptr` (modelled `none`) on a mismatch or on a null pointer, and
`get<S>` (`any_stream.hpp:204-210`) first `assert(has_value())`s —
documented precondition `\pre has_value() must be true`; when the wrapper is
empty the subsequent `*this->_stream` dereferences a null pointer (undefined,
an aborted assertion in debug builds), so no `std::bad_cast` is ever produced
there — and otherwise performs
`dynamic_cast<StreamErased<S>&>(*_stream)`, which throws `std::bad_cast`
exactly when the held concrete type is not `S`. -/

/-- The concrete output-stream types an `any_ostream` can hold in this
development (the file backend's state lives in the OS and is outside the
embedding; the downcast mechanics do not depend on it). -/
inductive OTag where
  | span
  | memory
  deriving DecidableEq, Repr

/-- The state of the concrete backend denoted by a tag. -/
@[reducible] def OState : OTag → Type
  | .span => span_ostream
  | .memory => memory_ostream

/-- The failure modes of `any_stream_base::get`:
`typeMismatch` is the `std::bad_cast` thrown by the checked reference
downcast; `emptyPrecondition` models calling `get` on an empty wrapper,
which violates the documented `has_value()` precondition
(`assert(this->has_value())`, then a null dereference — never a
`std::bad_cast`). -/
inductive GetErr where
  | typeMismatch
  | emptyPrecondition
  deriving DecidableEq, Repr

/-- `binary_io::any_ostream`'s `any_stream_base` state: a possibly-null owning
pointer to exactly one concrete erased stream (`any_stream.hpp:264`). -/
structure any_ostream where
  held : Option ((t : OTag) × OState t)

/-- `any_stream_base::has_value` (`any_stream.hpp:233`). -/
def any_ostream.has_value (a : any_ostream) : Bool :=
  a.held.isSome

/-- `any_stream_base::get_if<S>` (`any_stream.hpp:223-228`):
`dynamic_cast` on the stored pointer — `none` when empty or when the held
type differs from `S`, otherwise the held backend. -/
def any_ostream.get_if (S : OTag) (a : any_ostream) : Option (OState S) :=
  match a.held with
  | none => none
  | some h => if ht : h.1 = S then some (ht ▸ h.2) else none

/-- `any_stream_base::get<S>` (`any_stream.hpp:204-210`): on an empty wrapper
the documented precondition is violated (assertion/undefined, modelled
`emptyPrecondition`); on a held backend of a different type the reference
`dynamic_cast` throws `std::bad_cast` (`typeMismatch`); on the right type it
returns the held backend. -/
def any_ostream.get (S : OTag) (a : any_ostream) : Except GetErr (OState S) :=
  match a.held with
  | none => .error .emptyPrecondition
  | some h => if ht : h.1 = S then .ok (ht ▸ h.2) else .error .typeMismatch

/-! ## Operation sequences over the memory/span backends

Used to state the cursor non-negativity invariant (every public operation of
a span/memory stream: the two seeks and the backend's raw read or write). -/

/-- A public operation on an input stream built on `basic_seek_stream`. -/
inductive IOp where
  | seekAbs (p : streamoff)
  | seekRel (d : streamoff)
  | readBytes (n : Nat)

/-- A public operation on an output stream built on `basic_seek_stream`. -/
inductive OOp where
  | seekAbs (p : streamoff)
  | seekRel (d : streamoff)
  | writeBytes (src : List Nat)

/-- Apply one operation to a `span_istream` (a throwing read leaves the state
as it was at the throw point). -/
def span_istream.applyOp (s : span_istream) : IOp → span_istream
  | .seekAbs p => { s with seek := s.seek.seek_absolute p }
  | .seekRel d => { s with seek := s.seek.seek_relative d }
  | .readBytes n => (s.read_bytes n).2

/-- Apply one operation to a `memory_istream`. -/
def memory_istream.applyOp (s : memory_istream) : IOp → memory_istream
  | .seekAbs p => { s with seek := s.seek.seek_absolute p }
  | .seekRel d => { s with seek := s.seek.seek_relative d }
  | .readBytes n => (s.read_bytes n).2

/-- Apply one operation to a `span_ostream`. -/
def span_ostream.applyOp (s : span_ostream) : OOp → span_ostream
  | .seekAbs p => { s with seek := s.seek.seek_absolute p }
  | .seekRel d => { s with seek := s.seek.seek_relative d }
  | .writeBytes src => (s.write_bytes src).2

/-- Apply one operation to a `memory_ostream`. -/
def memory_ostream.applyOp (s : memory_ostream) : OOp → memory_ostream
  | .seekAbs p => { s with seek := s.seek.seek_absolute p }
  | .seekRel d => { s with seek := s.seek.seek_relative d }
  | .writeBytes src => (s.write_bytes src).2

/-- Run a sequence of operations left to right. -/
def span_istream.run (s : span_istream) (ops : List IOp) : span_istream :=
  ops.foldl span_istream.applyOp s

/-- Run a sequence of operations left to right. -/
def memory_istream.run (s : memory_istream) (ops : List IOp) : memory_istream :=
  ops.foldl memory_istream.applyOp s

/-- Run a sequence of operations left to right. -/
def span_ostream.run (s : span_ostream) (ops : List OOp) : span_ostream :=
  ops.foldl span_ostream.applyOp s

/-- Run a sequence of operations left to right. -/
def memory_ostream.run (s : memory_ostream) (ops : List OOp) : memory_ostream :=
  ops.foldl memory_ostream.applyOp s

/-! ## Claim theorems -/

/-- C1 (code-bug evidence).  The claim — a zero-byte read or write succeeds,
raises no error, changes no stored bytes (in particular never resizes the
owning buffer) and leaves the cursor unchanged, for every backend and every
cursor position — is what the span backend implements (last conjunct) and
what the library's own tests state ("writing 0 bytes to a stream is a
no-op"), but the owning-buffer backend violates it at a past-the-end cursor
(reachable from a fresh stream by one `seek_absolute`, third conjunct): its
zero-byte write resizes the buffer to the cursor position and its zero-byte
read throws `buffer_exhausted`, because `basic_memory_istream::read_bytes` /
`basic_memory_ostream::write_bytes` lack the zero-length early return of
their span counterparts. -/
theorem claim_C1_memory_zero_length_not_noop :
    (memory_ostream.write_bytes ⟨⟨5⟩, []⟩ []).1 = .ok () ∧
    (memory_ostream.write_bytes ⟨⟨5⟩, []⟩ []).2.buf = List.replicate 5 0 ∧
    (memory_istream.read_bytes ⟨⟨5⟩, []⟩ 0).1 = .error .bufferExhausted ∧
    basic_seek_stream.seek_absolute ⟨0⟩ 5 = ⟨5⟩ ∧
    span_istream.read_bytes ⟨⟨5⟩, []⟩ 0 = (.ok [], ⟨⟨5⟩, []⟩) := by
  decide

/-- C2 (counterexample).  The claim says `tell()` returns exactly the value
passed to `seek_absolute`, including a negative one; but the shared tracker
clamps to zero: seeking a fresh span input stream to `-1` leaves the cursor
at `0`, not `-1`. -/
theorem claim_C2_counterexample :
    ((span_istream.applyOp ⟨⟨0⟩, []⟩ (.seekAbs (-1))).seek.tell = 0) ∧
    (span_istream.applyOp ⟨⟨0⟩, []⟩ (.seekAbs (-1))).seek.tell ≠ -1 := by
  decide

/-- C2 (amended).  For every stream state of the shared position tracker
`basic_seek_stream`: after `seek_absolute(p)`, `tell()` returns
`max p 0`, and after `seek_relative(d)` from position `old`, `tell()`
returns `max (old + d) 0` — negative targets are clamped to zero. -/
theorem claim_C2_amended (s : basic_seek_stream) (p d : streamoff) :
    (s.seek_absolute p).tell = max p 0 ∧
    (s.seek_relative d).tell = max (s.tell + d) 0 :=
  ⟨rfl, rfl⟩

/-- C3 (counterexample).  The claim quantifies over *every* requested length:
with requested length `0` and a past-the-end cursor, the cursor plus the
length exceeds the span's available bytes (`1 + 0 > 0`), yet the span read
succeeds instead of failing with `buffer_exhausted`, because of the
zero-length early return. -/
theorem claim_C3_counterexample :
    ((⟨⟨1⟩, []⟩ : span_istream).seek.tell + ((0 : Nat) : Int) >
      (((⟨⟨1⟩, []⟩ : span_istream).buf.length : Nat) : Int)) ∧
    span_istream.read_bytes ⟨⟨1⟩, []⟩ 0 = (.ok [], ⟨⟨1⟩, []⟩) := by
  decide

/-- C3 (amended).  For a *nonzero* requested length: whenever the cursor plus
the requested length exceeds the available bytes, the span read, the span
write and the owning-buffer read fail with `buffer_exhausted` and leave the
whole stream state (cursor and buffer) exactly as it was, copying nothing.
(The cursor is non-negative on every reachable state; see the C9 theorem.) -/
theorem claim_C3_amended :
    (∀ (s : span_istream) (n : Nat), 0 < n → 0 ≤ s.seek.tell →
      s.seek.tell + (n : Int) > (s.buf.length : Int) →
      s.read_bytes n = (.error .bufferExhausted, s)) ∧
    (∀ (s : span_ostream) (src : List Nat), 0 < src.length → 0 ≤ s.seek.tell →
      s.seek.tell + (src.length : Int) > (s.buf.length : Int) →
      s.write_bytes src = (.error .bufferExhausted, s)) ∧
    (∀ (s : memory_istream) (n : Nat), 0 < n → 0 ≤ s.seek.tell →
      s.seek.tell + (n : Int) > (s.buf.length : Int) →
      s.read_bytes n = (.error .bufferExhausted, s)) := by
  refine ⟨?_, ?_, ?_⟩
  · intro s n hn _ hover
    unfold span_istream.read_bytes
    rw [if_neg (by omega), if_pos hover]
  · intro s src hn _ hover
    unfold span_ostream.write_bytes
    rw [if_neg (by omega), if_pos hover]
  · intro s n _ _ hover
    unfold memory_istream.read_bytes
    rw [if_pos hover]

/-- C3 (witness): the amended theorem applied to a one-byte backend with a
two-byte request at cursor `0`. -/
theorem claim_C3_witness :
    span_istream.read_bytes ⟨⟨0⟩, [7]⟩ 2 = (.error .bufferExhausted, ⟨⟨0⟩, [7]⟩) ∧
    span_ostream.write_bytes ⟨⟨0⟩, [7]⟩ [1, 2] = (.error .bufferExhausted, ⟨⟨0⟩, [7]⟩) ∧
    memory_istream.read_bytes ⟨⟨0⟩, [7]⟩ 2 = (.error .bufferExhausted, ⟨⟨0⟩, [7]⟩) :=
  ⟨claim_C3_amended.1 ⟨⟨0⟩, [7]⟩ 2 (by decide) (by decide) (by decide),
   claim_C3_amended.2.1 ⟨⟨0⟩, [7]⟩ [1, 2] (by decide) (by decide) (by decide),
   claim_C3_amended.2.2 ⟨⟨0⟩, [7]⟩ 2 (by decide) (by decide) (by decide)⟩

/-- C5 (confirmed).  For every native order, every requested order `O`, every
supported width `w ∈ {1,2,4,8}` and every representable value `v < 256^w`:
loading with order `O` the `w`-byte buffer produced by storing `v` with order
`O` yields exactly `v`. -/
theorem claim_C5_store_load_roundtrip (native E : Endian) (w v : Nat)
    (_hw : w = 1 ∨ w = 2 ∨ w = 4 ∨ w = 8) (hv : v < 256 ^ w) :
    load native E w (store native E w v) = v := by
  unfold load store
  by_cases h : native = E
  · simp only [h, ne_eq, not_true_eq_false, if_false, ite_false]
    exact nativeOfBytes_nativeToBytes E hv
  · have hrev : reverse w v < 256 ^ w := reverse_lt hv
    simp only [ne_eq, h, not_false_eq_true, if_true, ite_true]
    rw [nativeOfBytes_nativeToBytes native hrev]
    exact reverse_reverse hv

/-- C5 (witness): big-endian 4-byte roundtrip of `0x01020304` on a
little-endian native machine. -/
theorem claim_C5_witness :
    load .little .big 4 (store .little .big 4 0x01020304) = 0x01020304 :=
  claim_C5_store_load_roundtrip .little .big 4 0x01020304 (by decide) (by decide)

/-- C6 (confirmed).  On either native order: the batched big-endian write of
`uint8 0x01`, `uint16 0x0102`, `uint32 0x01020304` at position 0 into a fresh
owning-buffer stream succeeds and leaves the buffer holding exactly
`01 01 02 01 02 03 04` with the cursor at 7, and the batched big-endian read
of `(uint8, uint16, uint32)` at position 0 from that buffer yields
`(0x01, 0x0102, 0x01020304)`. -/
theorem claim_C6_batched_end_to_end (native : Endian) :
    memory_ostream.write_batch ⟨⟨0⟩, []⟩ native .big
        [(1, 0x01), (2, 0x0102), (4, 0x01020304)] =
      (.ok (), ⟨⟨7⟩, [0x01, 0x01, 0x02, 0x01, 0x02, 0x03, 0x04]⟩) ∧
    memory_istream.read_batch ⟨⟨0⟩, [0x01, 0x01, 0x02, 0x01, 0x02, 0x03, 0x04]⟩
        native .big [1, 2, 4] =
      (.ok [0x01, 0x0102, 0x01020304],
        ⟨⟨7⟩, [0x01, 0x01, 0x02, 0x01, 0x02, 0x03, 0x04]⟩) := by
  cases native <;> exact ⟨by decide, by decide⟩

/-- C7 (confirmed).  `endian::reverse` is an involution on every representable
value of the supported widths, and is the identity at width 1. -/
theorem claim_C7_reverse_involution :
    (∀ w v, (w = 1 ∨ w = 2 ∨ w = 4 ∨ w = 8) → v < 256 ^ w →
      reverse w (reverse w v) = v) ∧
    (∀ v, reverse 1 v = v) :=
  ⟨fun _ _ _ hv => reverse_reverse hv, fun _ => rfl⟩

/-- C7 (witness): the involution at width 2 on `0x0102`, and the width-1
identity on `0xAB`. -/
theorem claim_C7_witness :
    reverse 2 (reverse 2 0x0102) = 0x0102 ∧ reverse 1 0xAB = 0xAB :=
  ⟨claim_C7_reverse_involution.1 2 0x0102 (by decide) (by decide),
   claim_C7_reverse_involution.2 0xAB⟩

/-- C8 (counterexample).  The claim says `get` on an *empty* wrapper fails
with the type-mismatch error; but the source asserts the documented
precondition `has_value()` and dereferences the null stream pointer — no
`std::bad_cast` is produced.  The embedded `get` on the empty wrapper yields
the precondition-violation outcome, not `typeMismatch`. -/
theorem claim_C8_counterexample :
    any_ostream.get .span ⟨none⟩ = .error .emptyPrecondition ∧
    any_ostream.get .span ⟨none⟩ ≠ .error .typeMismatch :=
  ⟨rfl, fun h => absurd (Except.error.inj h) (by decide)⟩

/-- C8 (amended).  For every pair of distinct concrete backend types:
`get_if` with the wrong type returns the null result and `get` with the
wrong type fails with the type-mismatch error (`std::bad_cast`); `get` and
`get_if` with the correct type return the held backend; and `get` on an
*empty* wrapper is a documented precondition violation (a debug assertion /
undefined behaviour in the source), not a type-mismatch failure. -/
theorem claim_C8_amended :
    (∀ (t t' : OTag) (s' : OState t'), t' ≠ t →
      any_ostream.get_if t ⟨some ⟨t', s'⟩⟩ = none ∧
      any_ostream.get t ⟨some ⟨t', s'⟩⟩ = .error .typeMismatch) ∧
    (∀ (t : OTag) (s : OState t),
      any_ostream.get t ⟨some ⟨t, s⟩⟩ = .ok s ∧
      any_ostream.get_if t ⟨some ⟨t, s⟩⟩ = some s) ∧
    (∀ t : OTag, any_ostream.get t ⟨none⟩ = .error .emptyPrecondition) := by
  refine ⟨?_, ?_, ?_⟩
  · intro t t' s' hne
    exact ⟨dif_neg hne, dif_neg hne⟩
  · intro t s
    cases t <;> exact ⟨rfl, rfl⟩
  · intro t
    rfl

/-- C8 (witness): a wrapper holding a `memory_ostream`, probed for a
`span_ostream`. -/
theorem claim_C8_witness :
    any_ostream.get_if .span ⟨some ⟨.memory, ⟨⟨0⟩, []⟩⟩⟩ = none ∧
    any_ostream.get .span ⟨some ⟨.memory, ⟨⟨0⟩, []⟩⟩⟩ = .error .typeMismatch :=
  claim_C8_amended.1 .span .memory ⟨⟨0⟩, []⟩ (by decide)

/-- The buffer a growing `write_bytes` produces: the old bytes before the
cursor, zeros over the gap, then the source. -/
theorem writeAt_listResize (l src : List Nat) (c : Nat)
    (h : l.length < c + src.length) :
    writeAt (listResize l (c + src.length)) c src =
      l.take c ++ List.replicate (c - l.length) 0 ++ src := by
  have hres : listResize l (c + src.length) =
      l ++ List.replicate (c + src.length - l.length) 0 := by
    unfold listResize
    rw [List.take_of_length_le (Nat.le_of_lt h)]
  have hlen : (l ++ List.replicate (c + src.length - l.length) 0).length =
      c + src.length := by
    simp
    omega
  unfold writeAt
  rw [hres]
  have hdrop : (l ++ List.replicate (c + src.length - l.length) 0).drop
      (c + src.length) = [] := by
    apply List.drop_eq_nil_of_le
    omega
  have htake : (l ++ List.replicate (c + src.length - l.length) 0).take c =
      l.take c ++ List.replicate (c - l.length) 0 := by
    rw [List.take_append_eq_append_take, List.take_replicate]
    congr 1
    congr 1
    omega
  rw [hdrop, htake, List.append_nil]

/-- C4 (confirmed).  On the owning-buffer backend with resizable storage
(`std::vector`): a write whose end `c + n` lies past the current size
succeeds, leaves the buffer exactly `c + n` bytes long, zero-fills any gap
between the old size and the cursor `c`, places the `n` source bytes at
offset `c`, and advances the cursor to `c + n`. -/
theorem claim_C4_growing_write (s : memory_ostream) (src : List Nat)
    (hpos : 0 ≤ s.seek.tell)
    (hgrow : s.seek.tell + (src.length : Int) > (s.buf.length : Int)) :
    (s.write_bytes src).1 = .ok () ∧
    (s.write_bytes src).2.buf.length = s.seek.tell.toNat + src.length ∧
    (∀ i, s.buf.length ≤ i → i < s.seek.tell.toNat →
      (s.write_bytes src).2.buf[i]? = some 0) ∧
    ((s.write_bytes src).2.buf.drop s.seek.tell.toNat).take src.length = src ∧
    (s.write_bytes src).2.seek.tell = s.seek.tell + src.length := by
  obtain ⟨⟨pos⟩, l⟩ := s
  have hpos' : 0 ≤ pos := hpos
  have hgrow' : pos + (src.length : Int) > (l.length : Int) := hgrow
  obtain ⟨cn, rfl⟩ : ∃ n : Nat, pos = (n : Int) :=
    ⟨pos.toNat, (Int.toNat_of_nonneg hpos').symm⟩
  have hlt : l.length < cn + src.length := by exact_mod_cast hgrow'
  have hkey : memory_ostream.write_bytes ⟨⟨(cn : Int)⟩, l⟩ src =
      (.ok (), ⟨⟨(cn : Int) + (src.length : Int)⟩,
        l.take cn ++ List.replicate (cn - l.length) 0 ++ src⟩) := by
    simp only [memory_ostream.write_bytes, basic_seek_stream.tell,
      basic_seek_stream.seek_relative, basic_seek_stream.seek_absolute,
      Int.toNat_natCast]
    rw [if_pos hgrow']
    rw [show ((cn : Int) + (src.length : Int)).toNat = cn + src.length from by
      omega]
    rw [writeAt_listResize l src cn hlt]
    rw [max_eq_left (by positivity)]
  rw [hkey]
  simp only [basic_seek_stream.tell, Int.toNat_natCast]
  have hheadlen :
      (l.take cn ++ List.replicate (cn - l.length) 0).length = cn := by
    simp only [List.length_append, List.length_take, List.length_replicate]
    omega
  have hdropA : ∀ A B : List Nat, A.length = cn → (A ++ B).drop cn = B := by
    intro A B h
    rw [← h]
    exact List.drop_left A B
  refine ⟨trivial, ?_, ?_, ?_, trivial⟩
  · simp only [List.length_append, List.length_take, List.length_replicate]
    omega
  · intro i hil hic
    rw [List.append_assoc]
    rw [List.getElem?_append_right (by
      simp only [List.length_take]
      omega)]
    rw [List.getElem?_append_left (by
      simp only [List.length_take, List.length_replicate]
      omega)]
    rw [List.getElem?_replicate]
    rw [if_pos (by
      simp only [List.length_take]
      omega)]
  · rw [hdropA (l.take cn ++ List.replicate (cn - l.length) 0) src hheadlen]
    exact List.take_length src

/-- C4 (witness): writing `[5, 6]` at cursor 3 into a one-byte buffer `[9]`
grows it to `[9, 0, 0, 5, 6]`. -/
theorem claim_C4_witness :
    (memory_ostream.write_bytes ⟨⟨3⟩, [9]⟩ [5, 6]).1 = .ok () ∧
    (memory_ostream.write_bytes ⟨⟨3⟩, [9]⟩ [5, 6]).2.buf.length = 3 + 2 ∧
    (∀ i, 1 ≤ i → i < 3 →
      (memory_ostream.write_bytes ⟨⟨3⟩, [9]⟩ [5, 6]).2.buf[i]? = some 0) ∧
    ((memory_ostream.write_bytes ⟨⟨3⟩, [9]⟩ [5, 6]).2.buf.drop 3).take 2 = [5, 6] ∧
    (memory_ostream.write_bytes ⟨⟨3⟩, [9]⟩ [5, 6]).2.seek.tell = 3 + 2 :=
  claim_C4_growing_write ⟨⟨3⟩, [9]⟩ [5, 6] (by decide) (by decide)

/-- `seek_absolute` always lands at a non-negative position. -/
theorem seek_absolute_nonneg (s : basic_seek_stream) (p : streamoff) :
    0 ≤ (s.seek_absolute p).tell :=
  le_max_right p 0

/-- Every `span_istream` operation preserves a non-negative cursor. -/
theorem span_istream_applyOp_nonneg (s : span_istream) (op : IOp)
    (h : 0 ≤ s.seek.tell) : 0 ≤ (s.applyOp op).seek.tell := by
  cases op with
  | seekAbs p => exact le_max_right p 0
  | seekRel d => exact le_max_right _ 0
  | readBytes n =>
    show 0 ≤ (s.read_bytes n).2.seek.tell
    unfold span_istream.read_bytes
    split
    · exact h
    · split
      · exact h
      · exact le_max_right _ 0

/-- Every `memory_istream` operation preserves a non-negative cursor. -/
theorem memory_istream_applyOp_nonneg (s : memory_istream) (op : IOp)
    (h : 0 ≤ s.seek.tell) : 0 ≤ (s.applyOp op).seek.tell := by
  cases op with
  | seekAbs p => exact le_max_right p 0
  | seekRel d => exact le_max_right _ 0
  | readBytes n =>
    show 0 ≤ (s.read_bytes n).2.seek.tell
    unfold memory_istream.read_bytes
    split
    · exact h
    · exact le_max_right _ 0

/-- Every `span_ostream` operation preserves a non-negative cursor. -/
theorem span_ostream_applyOp_nonneg (s : span_ostream) (op : OOp)
    (h : 0 ≤ s.seek.tell) : 0 ≤ (s.applyOp op).seek.tell := by
  cases op with
  | seekAbs p => exact le_max_right p 0
  | seekRel d => exact le_max_right _ 0
  | writeBytes src =>
    show 0 ≤ (s.write_bytes src).2.seek.tell
    unfold span_ostream.write_bytes
    split
    · exact h
    · split
      · exact h
      · exact le_max_right _ 0

/-- Every `memory_ostream` operation preserves a non-negative cursor. -/
theorem memory_ostream_applyOp_nonneg (s : memory_ostream) (op : OOp)
    (_h : 0 ≤ s.seek.tell) : 0 ≤ (s.applyOp op).seek.tell := by
  cases op with
  | seekAbs p => exact le_max_right p 0
  | seekRel d => exact le_max_right _ 0
  | writeBytes src => exact le_max_right _ 0

/-- Run-level invariant for `span_istream`. -/
theorem span_istream_run_nonneg (ops : List IOp) (s : span_istream)
    (h : 0 ≤ s.seek.tell) : 0 ≤ (s.run ops).seek.tell := by
  induction ops generalizing s with
  | nil => exact h
  | cons op ops ih => exact ih _ (span_istream_applyOp_nonneg s op h)

/-- Run-level invariant for `memory_istream`. -/
theorem memory_istream_run_nonneg (ops : List IOp) (s : memory_istream)
    (h : 0 ≤ s.seek.tell) : 0 ≤ (s.run ops).seek.tell := by
  induction ops generalizing s with
  | nil => exact h
  | cons op ops ih => exact ih _ (memory_istream_applyOp_nonneg s op h)

/-- Run-level invariant for `span_ostream`. -/
theorem span_ostream_run_nonneg (ops : List OOp) (s : span_ostream)
    (h : 0 ≤ s.seek.tell) : 0 ≤ (s.run ops).seek.tell := by
  induction ops generalizing s with
  | nil => exact h
  | cons op ops ih => exact ih _ (span_ostream_applyOp_nonneg s op h)

/-- Run-level invariant for `memory_ostream`. -/
theorem memory_ostream_run_nonneg (ops : List OOp) (s : memory_ostream)
    (h : 0 ≤ s.seek.tell) : 0 ≤ (s.run ops).seek.tell := by
  induction ops generalizing s with
  | nil => exact h
  | cons op ops ih => exact ih _ (memory_ostream_applyOp_nonneg s op h)

/-- C9 (confirmed).  For each stream built on the shared position tracker
(span and owning-buffer, input and output): starting from a freshly
constructed stream (cursor 0) over any buffer, after any sequence of public
operations — absolute seek, relative seek, raw read/write of any size — the
cursor satisfies `tell() ≥ 0`: `seek_absolute` clamps to zero,
`seek_relative` goes through `seek_absolute`, and every successful
read/write advances through `seek_relative` by a non-negative count while a
failed one leaves the cursor untouched. -/
theorem claim_C9_cursor_nonneg :
    (∀ (buf : List Nat) (ops : List IOp),
      0 ≤ ((⟨⟨0⟩, buf⟩ : span_istream).run ops).seek.tell) ∧
    (∀ (buf : List Nat) (ops : List IOp),
      0 ≤ ((⟨⟨0⟩, buf⟩ : memory_istream).run ops).seek.tell) ∧
    (∀ (buf : List Nat) (ops : List OOp),
      0 ≤ ((⟨⟨0⟩, buf⟩ : span_ostream).run ops).seek.tell) ∧
    (∀ (buf : List Nat) (ops : List OOp),
      0 ≤ ((⟨⟨0⟩, buf⟩ : memory_ostream).run ops).seek.tell) :=
  ⟨fun buf ops => span_istream_run_nonneg ops ⟨⟨0⟩, buf⟩ le_rfl,
   fun buf ops => memory_istream_run_nonneg ops ⟨⟨0⟩, buf⟩ le_rfl,
   fun buf ops => span_ostream_run_nonneg ops ⟨⟨0⟩, buf⟩ le_rfl,
   fun buf ops => memory_ostream_run_nonneg ops ⟨⟨0⟩, buf⟩ le_rfl⟩

/-- C10 (confirmed).  For every concrete stream type, `get_if` on a wrapper
in the empty state (`has_value()` false, null stream pointer) returns the
null result: `dynamic_cast` on a null pointer is well-defined and yields
null, touching no backend. -/
theorem claim_C10_get_if_empty (S : OTag) :
    any_ostream.get_if S ⟨none⟩ = none ∧ any_ostream.has_value ⟨none⟩ = false :=
  ⟨rfl, rfl⟩

end BinaryIO
